import Mathlib

set_option linter.unusedVariables false
set_option linter.unnecessarySeqFocus false
set_option maxRecDepth 4096

/-!
Verification development for the usgmon repository: a shallow embedding of the
scanning engine (directory enumeration, size-measurement strategies, worker
pool) and the scan orchestrator (batching and persistence of results), with
theorems settling the specification's claims about them.

Conventions of the embedding:
- Go machine integers holding byte sizes (`int64`) are modelled as `Int`;
  counts as `Nat`.
- Filesystem and system-call behaviour is abstracted into explicit record-of-
  functions environments (`FileSystem`, `SysProbe`, `WalkFS`): a call such as
  `os.Stat` becomes a lookup in the environment.  The environment is fixed for
  the duration of one operation, modelling an unmodified filesystem.
- `context.Context` cancellation is modelled as a Boolean schedule
  `done : Nat → Bool` indexed by the number of cancellation checkpoints passed
  so far (checkpoint n is cancelled iff `done n = true`), or, where only the
  final check matters, as a single Boolean.
- Fallible Go calls returning `(T, error)` become `Option`-valued results or
  pairs with an `Option String` error component.
- Wall-clock fields (`Duration`, `RecordedAt`) are omitted: they are opaque
  timestamps that no claim depends on.
-/

namespace Usgmon

/-! ## Size strategies: selection (internal/scanner/strategy.go, auto.go) -/

/-- Environment of system probes used by strategy selection:
`isCephFS` embeds `syscall.Statfs` + comparison with `CephFSMagic`,
`duLookup` embeds `exec.LookPath("du")` (`none` = not resolvable),
`evalSymlinks` embeds `filepath.EvalSymlinks` (`none` = resolution error). -/
structure SysProbe where
  isCephFS : String → Bool
  duLookup : Option String
  evalSymlinks : String → Option String

/-- The strategy a selector chooses: CephFS xattr, external `du`, or manual walk. -/
inductive StrategyChoice where
  | ceph : StrategyChoice
  | du (duPath : String) : StrategyChoice
  | walk : StrategyChoice
deriving DecidableEq, Repr

/-- Embeds `DetectStrategy` (internal/scanner/strategy.go): CephFS check first,
then `du` lookup, else walk.  The `followSymlinks` argument is only stored in
the constructed strategy value in the source and does not affect the choice. -/
def DetectStrategy (env : SysProbe) (path : String) (followSymlinks : Bool) : StrategyChoice :=
  if env.isCephFS path then
    .ceph
  else
    match env.duLookup with
    | some duPath => .du duPath
    | none => .walk

/-- Embeds the `AutoStrategy` struct (internal/scanner/auto.go): the `du` path
and availability captured once at construction. -/
structure AutoStrategy where
  duPath : String
  hasDu : Bool

/-- Embeds `NewAutoStrategy` (internal/scanner/auto.go): `exec.LookPath("du")`
once; on error the path is the zero value and `hasDu` is false. -/
def NewAutoStrategy (env : SysProbe) : AutoStrategy :=
  match env.duLookup with
  | some duPath => ⟨duPath, true⟩
  | none => ⟨"", false⟩

/-- Embeds `AutoStrategy.StrategyFor` (internal/scanner/auto.go): resolve
symlinks (falling back to the raw path on error), check CephFS on the resolved
path, else `du` if available, else walk. -/
def StrategyFor (env : SysProbe) (s : AutoStrategy) (path : String) : StrategyChoice :=
  let resolvedPath := (env.evalSymlinks path).getD path
  if env.isCephFS resolvedPath then
    .ceph
  else if s.hasDu then
    .du s.duPath
  else
    .walk

/-! ## The Walk strategy (internal/scanner/walk.go)

`filepath.WalkDir` visits the rooted tree in depth-first order, invoking the
callback once per visited entry (and a second time, with an error, for a
directory whose contents cannot be read, and exactly once with an error when
the root itself cannot be stat'ed).  The callback in `walkNoFollow` checks the
context, skips erroneous entries, and accumulates the sizes of non-directory
entries.  We embed the traversal as the callback-event sequence of the tree
and the callback as a fold over that sequence. -/

/-- A node of the filesystem tree that `filepath.WalkDir` traverses.  A `file`
is any non-directory entry (regular file, symlink, device); `infoErr` marks
entries whose `d.Info()` call fails.  `readable` marks whether the directory's
contents can be listed. -/
inductive FsNode where
  | file (name : String) (size : Int) (infoErr : Bool) : FsNode
  | dirNode (name : String) (readable : Bool) (children : List FsNode) : FsNode
deriving Repr

/-- One invocation of the `filepath.WalkDir` callback in `walkNoFollow`:
a visit of a non-directory entry (carrying its size and whether `d.Info()`
fails), a visit of a directory entry, or a visit with a non-nil error
(unreadable directory contents or unstatable root). -/
inductive WalkEvent where
  | fileVisit (size : Int) (infoErr : Bool) : WalkEvent
  | dirVisit : WalkEvent
  | errVisit : WalkEvent
deriving Repr

mutual

/-- The callback-event sequence `filepath.WalkDir` produces for one node:
the node's own visit, then (for a readable directory) its children in order,
or (for an unreadable directory) a second visit carrying the read error. -/
def walkEvents : FsNode → List WalkEvent
  | .file _ size infoErr => [.fileVisit size infoErr]
  | .dirNode _ readable children =>
    if readable then
      .dirVisit :: walkEventsList children
    else
      [.dirVisit, .errVisit]

/-- Event sequences of a list of sibling nodes, concatenated in order. -/
def walkEventsList : List FsNode → List WalkEvent
  | [] => []
  | t :: rest => walkEvents t ++ walkEventsList rest

end

/-- The body of the callback in `walkNoFollow` (internal/scanner/walk.go),
folded over the event sequence: at each event, first check the context
(returning `ctx.Err()` aborts the walk with that error), then skip events
carrying an error, then add the size of a non-directory entry whose `Info()`
succeeds.  Returns the accumulated total and the error `WalkDir` returned. -/
def walkFold (done : Nat → Bool) : List WalkEvent → Nat → Int → Int × Option String
  | [], _, acc => (acc, none)
  | ev :: rest, n, acc =>
    if done n then
      (acc, some "context canceled")
    else
      match ev with
      | .fileVisit size infoErr =>
        walkFold done rest (n + 1) (if infoErr then acc else acc + size)
      | .dirVisit => walkFold done rest (n + 1) acc
      | .errVisit => walkFold done rest (n + 1) acc

/-- The event sequence of a whole walk: a single error visit when the root
cannot be stat'ed, else the root node's sequence. -/
def rootEvents : Option FsNode → List WalkEvent
  | none => [WalkEvent.errVisit]
  | some t => walkEvents t

/-- Embeds `WalkStrategy.walkNoFollow` (internal/scanner/walk.go): run
`filepath.WalkDir` over the tree rooted at the path (`none` = the root cannot
be stat'ed, producing a single error visit which the callback swallows); if
the walk returns an error, return `(0, err)`, discarding the partial total;
otherwise return the total. -/
def walkNoFollow (done : Nat → Bool) (root : Option FsNode) : Int × Option String :=
  match walkFold done (rootEvents root) 0 0 with
  | (_, some e) => (0, some e)
  | (acc, none) => (acc, none)

/-- Environment for the Walk strategy: `evalSymlinks` embeds
`filepath.EvalSymlinks`; `node` gives the tree rooted at a (resolved) path as
`filepath.WalkDir` sees it, `none` when the root cannot be stat'ed. -/
structure WalkFS where
  evalSymlinks : String → Option String
  node : String → Option FsNode

/-- Embeds `WalkStrategy.GetSize` (internal/scanner/walk.go): resolve the path
(falling back to the original on resolution error), then walk without
following symlinks inside. -/
def walkGetSize (fs : WalkFS) (done : Nat → Bool) (path : String) : Int × Option String :=
  let resolvedPath := (fs.evalSymlinks path).getD path
  walkNoFollow done (fs.node resolvedPath)

/-- The pure byte total of an event sequence: sizes of non-directory visits
whose `Info()` succeeds. -/
def eventsSize : List WalkEvent → Int
  | [] => 0
  | .fileVisit size infoErr :: rest => (if infoErr then 0 else size) + eventsSize rest
  | .dirVisit :: rest => eventsSize rest
  | .errVisit :: rest => eventsSize rest

/-! ## Directory enumeration (part_009)

`getDirectoriesAtDepth` stats the base, walks level by level to the target
depth, and guards admission to the next level with a per-scan visited set
keyed by `(device, inode)` identity. -/

/-- Embeds the Filesystem Identity: the `(Dev, Ino)` pair from
`syscall.Stat_t`, identifying a physical filesystem object independent of
path aliasing. -/
structure Identity where
  dev : Nat
  ino : Nat
deriving DecidableEq, Repr

/-- Embeds `fs.DirEntry` as the enumeration uses it: the entry's name, its
`IsDir()` bit and its `Type() & ModeSymlink` bit (both from the lstat-style
type bits, so a symlink to a directory has `isDir = false`,
`isSymlink = true`). -/
structure FsDirEntry where
  name : String
  isDir : Bool
  isSymlink : Bool
deriving DecidableEq, Repr

/-- The filesystem as the enumerator observes it:
`stat` embeds `os.Stat`/`syscall.Stat` (symlink-following; `none` = error),
returning the target's identity and whether it is a directory;
`readDir` embeds `os.ReadDir` (`none` = unreadable). -/
structure FileSystem where
  stat : String → Option (Identity × Bool)
  readDir : String → Option (List FsDirEntry)

/-- Embeds `filepath.Join dir name` for the purpose of forming child paths. -/
def pathJoin (dir name : String) : String :=
  dir ++ "/" ++ name

/-- Embeds `visitedSet.seen` (part_009): stat the path (error = `none`);
report whether the identity was already visited, marking it visited if not. -/
def visitedSeen (fs : FileSystem) (v : List Identity) (path : String) :
    Option (Bool × List Identity) :=
  match fs.stat path with
  | none => none
  | some (id, _) =>
    if id ∈ v then some (true, v) else some (false, id :: v)

/-- The per-entry admission decision of the level loop in
`getDirectoriesAtDepth` (part_009): a symlink is followed only when enabled
and its resolved target is a directory; an already-visited or unstatable
identity is skipped; an admitted entry is returned with the visited set that
now contains it.  `none` = the entry is skipped (visited set unchanged). -/
def admitEntry (fs : FileSystem) (follow : Bool) (dir : String) (e : FsDirEntry)
    (v : List Identity) : Option (String × List Identity) :=
  if e.isSymlink then
    if follow = false then none
    else
      match fs.stat (pathJoin dir e.name) with
      | none => none
      | some (_, targetIsDir) =>
        if targetIsDir = false then none
        else
          match visitedSeen fs v (pathJoin dir e.name) with
          | none => none
          | some (true, _) => none
          | some (false, v') => some (pathJoin dir e.name, v')
  else if e.isDir then
    match visitedSeen fs v (pathJoin dir e.name) with
    | none => none
    | some (true, _) => none
    | some (false, v') => some (pathJoin dir e.name, v')
  else none

/-- The `for _, entry := range entries` loop of `getDirectoriesAtDepth`
(part_009): admitted child paths in order, with the threaded visited set. -/
def admitEntries (fs : FileSystem) (follow : Bool) (dir : String) :
    List FsDirEntry → List Identity → List String × List Identity
  | [], v => ([], v)
  | e :: rest, v =>
    match admitEntry fs follow dir e v with
    | none => admitEntries fs follow dir rest v
    | some (p, v') =>
      let (adm, v'') := admitEntries fs follow dir rest v'
      (p :: adm, v'')

/-- The `for _, dir := range currentLevel` loop of `getDirectoriesAtDepth`
(part_009): list each level directory's entries (skipping unreadable ones)
and admit children, accumulating the next level. -/
def expandLevel (fs : FileSystem) (follow : Bool) :
    List String → List Identity → List String × List Identity
  | [], v => ([], v)
  | dir :: rest, v =>
    match fs.readDir dir with
    | none => expandLevel fs follow rest v
    | some entries =>
      let (adm, v') := admitEntries fs follow dir entries v
      let (more, v'') := expandLevel fs follow rest v'
      (adm ++ more, v'')

/-- The `for d := 0; d < depth; d++` loop of `getDirectoriesAtDepth`
(part_009): expand `depth` levels starting from the current one.  Structural
recursion on `depth`, embedding the loop's unconditional termination. -/
def enumerateLevels (fs : FileSystem) (follow : Bool) :
    Nat → List String → List Identity → List String
  | 0, currentLevel, _ => currentLevel
  | d + 1, currentLevel, v =>
    let (nextLevel, v') := expandLevel fs follow currentLevel v
    enumerateLevels fs follow d nextLevel v'

/-- Embeds `Scanner.getDirectoriesAtDepth` (part_009): stat the base
(propagating a stat error), return empty for a non-directory, the base itself
at depth 0, and otherwise the visited-set-guarded level expansion seeded with
the base marked visited. -/
def getDirectoriesAtDepth (fs : FileSystem) (basePath : String) (depth : Nat)
    (follow : Bool) : Option (List String) :=
  match fs.stat basePath with
  | none => none
  | some (_, isDir) =>
    if isDir = false then some []
    else if depth = 0 then some [basePath]
    else
      match visitedSeen fs [] basePath with
      | none => none
      | some (_, v) => some (enumerateLevels fs follow depth [basePath] v)

/-- The identity the filesystem assigns to a path, if statable. -/
def idOf (fs : FileSystem) (path : String) : Option Identity :=
  (fs.stat path).map Prod.fst

/-! ## Scanner and the one-shot single-directory scan (scanner.go, part_009) -/

/-- Embeds `scanner.Result` (part_009): the outcome of measuring one
directory.  The Go `Error error` field becomes `error : Option String`; the
wall-clock `Duration` field is omitted. -/
structure Result where
  path : String
  sizeBytes : Int
  error : Option String
deriving DecidableEq, Repr

/-- A strategy's measurement behaviour, abstracted: from a path to the
`(bytes, error)` pair its `GetSize` returns in the current environment. -/
def StrategyFn : Type := String → Int × Option String

/-- Embeds the `scanner.Scanner` struct (part_009): worker count and optional
preset strategy (`none` = auto-detect per scan). -/
structure Scanner where
  workers : Int
  strategy : Option StrategyFn

/-- Embeds `scanner.New` (part_009): worker counts below 1 are coerced to 1. -/
def Scanner.New (workers : Int) (strategy : Option StrategyFn) : Scanner :=
  if workers < 1 then ⟨1, strategy⟩ else ⟨workers, strategy⟩

/-- Embeds `Scanner.ScanSingleWithOptions` (part_009): pick the preset
strategy or the detected one, time one `GetSize` call, and return the wrapped
`Result` together with a `nil` operation error.  `detected` is the behaviour
of the strategy `DetectStrategy` would return for this path and options. -/
def ScanSingleWithOptions (s : Scanner) (detected : StrategyFn) (path : String) :
    Result × Option String :=
  let strategy := s.strategy.getD detected
  let r := strategy path
  (⟨path, r.1, r.2⟩, none)

/-! ## The streaming worker pool (part_009, `ScanPathStreaming`)

`ScanPathStreaming` spawns exactly `s.workers` worker goroutines; each drains
`dirCh` sequentially, holding at most one `strategy.GetSize` call at a time.
We embed the pool as a small-step transition system over the workers' states
and the (remaining) stream of directories, and show the number of
simultaneously active `GetSize` calls never exceeds the pool size. -/

/-- The phase a single worker goroutine is in: blocked on `dirCh`, inside a
`strategy.GetSize` call for a directory, or exited (channel closed). -/
inductive WorkerPhase where
  | waiting : WorkerPhase
  | measuring (dir : String) : WorkerPhase
  | finished : WorkerPhase
deriving DecidableEq, Repr

/-- A snapshot of the streaming pool: the directories the enumerator has yet
to hand out, and the phase of each of the spawned workers. -/
structure PoolState where
  pending : List String
  workers : List WorkerPhase
deriving DecidableEq, Repr

/-- The pool state right after `ScanPathStreaming` spawns its workers: every
directory still pending, all `s.workers` goroutines waiting on `dirCh`. -/
def initPool (s : Scanner) (dirs : List String) : PoolState :=
  ⟨dirs, List.replicate s.workers.toNat .waiting⟩

/-- One scheduler step of the streaming pool: a waiting worker receives the
next directory and enters its `GetSize` call; a measuring worker finishes its
call (emitting its `Result`) and loops back to `dirCh`; a waiting worker
exits when the channel is exhausted and closed. -/
inductive PoolStep : PoolState → PoolState → Prop
  | takeDir (s : PoolState) (i : Nat) (d : String) (rest : List String)
      (hw : s.workers.get? i = some .waiting) (hp : s.pending = d :: rest) :
      PoolStep s ⟨rest, s.workers.set i (.measuring d)⟩
  | finishDir (s : PoolState) (i : Nat) (d : String)
      (hw : s.workers.get? i = some (.measuring d)) :
      PoolStep s ⟨s.pending, s.workers.set i .waiting⟩
  | exitWorker (s : PoolState) (i : Nat)
      (hw : s.workers.get? i = some .waiting) (hp : s.pending = []) :
      PoolStep s ⟨s.pending, s.workers.set i .finished⟩

/-- The number of `strategy.GetSize` calls active in a pool state. -/
def activeCalls (s : PoolState) : Nat :=
  (s.workers.filter fun w =>
    match w with
    | .measuring _ => true
    | _ => false).length

/-! ## The scan orchestrator: `runScan` batching and persistence (part_004)

`runScan` consumes the streaming result channel, skips failed results,
accumulates successful ones into batches of `batchSize`, flushes each full
batch (and a final partial one) through `storage.RecordUsageBatch`, and then
marks the Scan Record failed (on a flush error, with that error; after
cancellation, with reason "cancelled") or completed with the count of
persisted records.

The persistence collaborator is abstracted as `flushErr : Nat → Option String`,
giving for the n-th `RecordUsageBatch` call (0-based) `none` on success or the
error string it returns.  A successful call appends the whole batch to the
persisted records; a failed call persists nothing of the batch (one rolled-back
transaction, `sqlite.go` `RecordUsageBatch`).  `cancelled` is the value of
`scanCtx.Err() != nil` at the post-loop check; `results` is the sequence the
channel delivered (on cancellation, a prefix of the scan's results).  The model
covers the body after a successful `StartScan` and stream start. -/

/-- Embeds `storage.UsageRecord` as `runScan` builds it (part_004): base
path, directory, size and scan id.  The wall-clock `RecordedAt` is omitted. -/
structure UsageRecord where
  basePath : String
  directory : String
  sizeBytes : Int
  scanID : String
deriving DecidableEq, Repr

/-- The final state of the persisted Scan Record after one `runScan`:
completed with a directory count, or failed with a reason. -/
inductive ScanStatus where
  | completed (directories : Nat) : ScanStatus
  | failed (reason : String) : ScanStatus
deriving DecidableEq, Repr

/-- The outcome of one `runScan` against the persistence collaborator: every
usage record durably persisted (flushed batches, in order), the number of
`RecordUsageBatch` calls made, and the Scan Record's final status. -/
structure ScanOutcome where
  persisted : List UsageRecord
  attempts : Nat
  status : ScanStatus
deriving DecidableEq, Repr

/-- Embeds the `batchSize` constant (part_004). -/
def batchSize : Nat := 100

/-- The `storage.UsageRecord{...}` literal `runScan` appends to its batch for
a successful result (part_004). -/
def mkRecord (basePath scanID : String) (r : Result) : UsageRecord :=
  ⟨basePath, r.path, r.sizeBytes, scanID⟩

/-- Embeds the result-processing loop of `runScan` (part_004) together with
the trailing final flush, cancellation check, and scan-record update.
Arguments after `results`: the accumulated `batch`, `totalRecords`, the
records persisted so far, and the number of flush calls made so far. -/
def runScanLoop (flushErr : Nat → Option String) (basePath scanID : String)
    (cancelled : Bool) :
    List Result → List UsageRecord → Nat → List UsageRecord → Nat → ScanOutcome
  | [], batch, totalRecords, persisted, attempts =>
    -- final `flushBatch` (a no-op on an empty batch), then the
    -- `scanCtx.Err()` check, then `CompleteScan`
    if batch.isEmpty then
      if cancelled then ⟨persisted, attempts, .failed "cancelled"⟩
      else ⟨persisted, attempts, .completed totalRecords⟩
    else
      match flushErr attempts with
      | some e => ⟨persisted, attempts + 1, .failed e⟩
      | none =>
        if cancelled then
          ⟨persisted ++ batch, attempts + 1, .failed "cancelled"⟩
        else
          ⟨persisted ++ batch, attempts + 1, .completed (totalRecords + batch.length)⟩
  | r :: rest, batch, totalRecords, persisted, attempts =>
    match r.error with
    | some _ =>
      -- failed measurement: logged and skipped
      runScanLoop flushErr basePath scanID cancelled rest batch totalRecords
        persisted attempts
    | none =>
      -- `batch = append(batch, record)`, then `if len(batch) >= batchSize`
      if batchSize ≤ (batch ++ [mkRecord basePath scanID r]).length then
        -- in-loop `flushBatch`: on error, `FailScan(err)` and return
        match flushErr attempts with
        | some e => ⟨persisted, attempts + 1, .failed e⟩
        | none =>
          runScanLoop flushErr basePath scanID cancelled rest []
            (totalRecords + (batch ++ [mkRecord basePath scanID r]).length)
            (persisted ++ (batch ++ [mkRecord basePath scanID r]))
            (attempts + 1)
      else
        runScanLoop flushErr basePath scanID cancelled rest
          (batch ++ [mkRecord basePath scanID r]) totalRecords
          persisted attempts

/-- Embeds `Daemon.runScan` (part_004) from the start of result processing:
empty batch, zero counts, nothing persisted. -/
def runScan (flushErr : Nat → Option String) (basePath scanID : String)
    (cancelled : Bool) (results : List Result) : ScanOutcome :=
  runScanLoop flushErr basePath scanID cancelled results [] 0 [] 0

/-- The usage records `runScan` builds from the successful results, in
order. -/
def successRecords (basePath scanID : String) (results : List Result) :
    List UsageRecord :=
  (results.filter fun r => r.error.isNone).map (mkRecord basePath scanID)

/-- The number of successful results in a delivered sequence. -/
def successCount (results : List Result) : Nat :=
  (results.filter fun r => r.error.isNone).length

/-! ## Theorems -/

theorem walkFold_no_cancel (done : Nat → Bool) (h : ∀ n, done n = false) :
    ∀ (events : List WalkEvent) (n : Nat) (acc : Int),
      walkFold done events n acc = (acc + eventsSize events, none) := by
  intro events
  induction events with
  | nil => intro n acc; simp [walkFold, eventsSize]
  | cons ev rest ih =>
    intro n acc
    cases ev with
    | fileVisit size infoErr =>
      simp only [walkFold, h n, eventsSize, ih]
      cases infoErr <;> simp [add_assoc]
    | dirVisit =>
      simp [walkFold, h n, eventsSize, ih]
    | errVisit =>
      simp [walkFold, h n, eventsSize, ih]

theorem walkNoFollow_no_cancel (done : Nat → Bool) (h : ∀ n, done n = false)
    (root : Option FsNode) :
    walkNoFollow done root = (eventsSize (rootEvents root), none) := by
  unfold walkNoFollow
  rw [walkFold_no_cancel done h]
  simp

/-! ### Properties of the visited-set-guarded enumeration -/

theorem visitedSeen_false (fs : FileSystem) (v : List Identity) (path : String)
    (v' : List Identity) (h : visitedSeen fs v path = some (false, v')) :
    ∃ id, idOf fs path = some id ∧ id ∉ v ∧ v' = id :: v := by
  unfold visitedSeen at h
  rcases hs : fs.stat path with _ | ⟨id, b⟩ <;> rw [hs] at h
  · exact absurd h (by simp)
  · by_cases hm : id ∈ v
    · simp [hm] at h
    · simp [hm] at h
      exact ⟨id, by simp [idOf, hs], hm, h.symm⟩

theorem admitEntry_spec (fs : FileSystem) (follow : Bool) (dir : String)
    (e : FsDirEntry) (v : List Identity) (p : String) (v' : List Identity)
    (h : admitEntry fs follow dir e v = some (p, v')) :
    ∃ id, idOf fs p = some id ∧ id ∉ v ∧ v' = id :: v := by
  unfold admitEntry at h
  repeat' split at h
  all_goals simp at h
  all_goals rename_i v1 hv
  all_goals obtain ⟨rfl, rfl⟩ := h
  all_goals
    rcases visitedSeen_false fs v _ _ hv with ⟨id, hid, hnm, hv1⟩
  all_goals exact ⟨id, hid, hnm, hv1⟩

theorem admitEntries_spec (fs : FileSystem) (follow : Bool) (dir : String) :
    ∀ (entries : List FsDirEntry) (v : List Identity),
      (∀ x ∈ v, x ∈ (admitEntries fs follow dir entries v).2)
      ∧ (∀ p ∈ (admitEntries fs follow dir entries v).1,
          ∃ id, idOf fs p = some id
            ∧ id ∈ (admitEntries fs follow dir entries v).2 ∧ id ∉ v)
      ∧ (admitEntries fs follow dir entries v).1.Pairwise
          (fun p q => idOf fs p ≠ idOf fs q) := by
  intro entries
  induction entries with
  | nil => intro v; simp [admitEntries]
  | cons e rest ih =>
    intro v
    rcases ha : admitEntry fs follow dir e v with _ | ⟨p, v1⟩
    · simpa [admitEntries, ha] using ih v
    · rcases admitEntry_spec fs follow dir e v p v1 ha with ⟨id, hid, hnm, hv1⟩
      rcases ih v1 with ⟨ihMono, ihMem, ihPw⟩
      rcases hrest : admitEntries fs follow dir rest v1 with ⟨adm, v2⟩
      rw [hrest] at ihMono ihMem ihPw
      simp only [admitEntries, ha, hrest]
      refine ⟨?_, ?_, ?_⟩
      · intro x hx
        exact ihMono x (by rw [hv1]; exact List.mem_cons_of_mem id hx)
      · intro q hq
        rcases List.mem_cons.mp hq with hq | hq
        · subst hq
          exact ⟨id, hid, ihMono id (by rw [hv1]; exact List.mem_cons_self id v), hnm⟩
        · rcases ihMem q hq with ⟨idq, hidq, hmemq, hnmq⟩
          refine ⟨idq, hidq, hmemq, fun hc => hnmq ?_⟩
          rw [hv1]
          exact List.mem_cons_of_mem id hc
      · refine List.Pairwise.cons ?_ ihPw
        intro q hq
        rcases ihMem q hq with ⟨idq, hidq, _, hnmq⟩
        rw [hid, hidq]
        intro hc
        apply hnmq
        rw [hv1]
        simp only [Option.some.injEq] at hc
        rw [← hc]
        exact List.mem_cons_self id v

theorem expandLevel_spec (fs : FileSystem) (follow : Bool) :
    ∀ (dirs : List String) (v : List Identity),
      (∀ x ∈ v, x ∈ (expandLevel fs follow dirs v).2)
      ∧ (∀ p ∈ (expandLevel fs follow dirs v).1,
          ∃ id, idOf fs p = some id
            ∧ id ∈ (expandLevel fs follow dirs v).2 ∧ id ∉ v)
      ∧ (expandLevel fs follow dirs v).1.Pairwise
          (fun p q => idOf fs p ≠ idOf fs q) := by
  intro dirs
  induction dirs with
  | nil => intro v; simp [expandLevel]
  | cons dir rest ih =>
    intro v
    rcases hr : fs.readDir dir with _ | entries
    · simpa [expandLevel, hr] using ih v
    · rcases ha : admitEntries fs follow dir entries v with ⟨adm1, v1⟩
      rcases admitEntries_spec fs follow dir entries v with ⟨aMono, aMem, aPw⟩
      rw [ha] at aMono aMem aPw
      rcases ih v1 with ⟨ihMono, ihMem, ihPw⟩
      rcases hrest : expandLevel fs follow rest v1 with ⟨adm2, v2⟩
      rw [hrest] at ihMono ihMem ihPw
      simp only [expandLevel, hr, ha, hrest]
      refine ⟨?_, ?_, ?_⟩
      · intro x hx
        exact ihMono x (aMono x hx)
      · intro q hq
        rcases List.mem_append.mp hq with hq | hq
        · rcases aMem q hq with ⟨idq, hidq, hmemq, hnmq⟩
          exact ⟨idq, hidq, ihMono idq hmemq, hnmq⟩
        · rcases ihMem q hq with ⟨idq, hidq, hmemq, hnmq⟩
          exact ⟨idq, hidq, hmemq, fun hc => hnmq (aMono idq hc)⟩
      · rw [List.pairwise_append]
        refine ⟨aPw, ihPw, ?_⟩
        intro p hp q hq
        rcases aMem p hp with ⟨idp, hidp, hmemp, _⟩
        rcases ihMem q hq with ⟨idq, hidq, _, hnmq⟩
        rw [hidp, hidq]
        intro hc
        simp only [Option.some.injEq] at hc
        exact hnmq (hc ▸ hmemp)

theorem enumerateLevels_pairwise (fs : FileSystem) (follow : Bool) :
    ∀ (d : Nat) (currentLevel : List String) (v : List Identity),
      (enumerateLevels fs follow (d + 1) currentLevel v).Pairwise
        (fun p q => idOf fs p ≠ idOf fs q) := by
  intro d
  induction d with
  | zero =>
    intro currentLevel v
    rcases hx : expandLevel fs follow currentLevel v with ⟨nextLevel, v'⟩
    have := (expandLevel_spec fs follow currentLevel v).2.2
    rw [hx] at this
    simpa [enumerateLevels, hx] using this
  | succ d ih =>
    intro currentLevel v
    rcases hx : expandLevel fs follow currentLevel v with ⟨nextLevel, v'⟩
    simpa [enumerateLevels, hx] using ih nextLevel v'

/-- Claim C4: within one enumeration pass the visited set admits each
Filesystem Identity at most once, so — for every modelled filesystem,
including ones where symlinks form cycles, with symlink-following enabled or
not — the directories the pass yields have pairwise distinct identities: each
physical directory is yielded at most once per scan.  Termination for every
tree is embedded by `enumerateLevels` being total structural recursion on the
depth (the source loop `for d := 0; d < depth; d++` runs exactly `depth`
times). -/
theorem c4_visited_set_admits_once (fs : FileSystem) (basePath : String)
    (depth : Nat) (follow : Bool) (dirs : List String)
    (h : getDirectoriesAtDepth fs basePath depth follow = some dirs) :
    dirs.Pairwise (fun p q => idOf fs p ≠ idOf fs q) := by
  unfold getDirectoriesAtDepth at h
  rcases hs : fs.stat basePath with _ | ⟨id, isDir⟩ <;> rw [hs] at h
  · exact absurd h (by simp)
  · cases isDir with
    | false =>
      simp at h
      exact h ▸ List.Pairwise.nil
    | true =>
      cases depth with
      | zero =>
        simp at h
        exact h ▸ List.pairwise_singleton _ _
      | succ d =>
        have hv : visitedSeen fs [] basePath = some (false, [id]) := by
          unfold visitedSeen
          rw [hs]
          simp
        simp only [hv] at h
        simp at h
        exact h ▸ enumerateLevels_pairwise fs follow d [basePath] [id]

/-- Witness for C4: a base directory containing a real subdirectory and a
symlink back to the base (a symlink cycle), followed; the level-1 yield is
exactly the subdirectory, and its identities are pairwise distinct. -/
theorem c4_visited_set_admits_once_witness :
    getDirectoriesAtDepth
        ⟨fun p => if p = "/a" ∨ p = "/a/loop" then some (⟨1, 1⟩, true)
          else if p = "/a/sub" then some (⟨1, 2⟩, true) else none,
         fun p => if p = "/a" then some [⟨"sub", true, false⟩, ⟨"loop", false, true⟩]
          else none⟩
        "/a" 1 true = some ["/a/sub"]
      ∧ (["/a/sub"] : List String).Pairwise
          (fun p q =>
            idOf ⟨fun p => if p = "/a" ∨ p = "/a/loop" then some (⟨1, 1⟩, true)
              else if p = "/a/sub" then some (⟨1, 2⟩, true) else none,
             fun p => if p = "/a" then some [⟨"sub", true, false⟩, ⟨"loop", false, true⟩]
              else none⟩ p
            ≠ idOf ⟨fun p => if p = "/a" ∨ p = "/a/loop" then some (⟨1, 1⟩, true)
              else if p = "/a/sub" then some (⟨1, 2⟩, true) else none,
             fun p => if p = "/a" then some [⟨"sub", true, false⟩, ⟨"loop", false, true⟩]
              else none⟩ q) :=
  ⟨by decide,
   c4_visited_set_admits_once _ "/a" 1 true ["/a/sub"] (by decide)⟩

/-- Claim C5 counterexample: when the base path cannot be stat'ed (does not
exist), depth-0 enumeration does not yield an empty result — it returns the
stat error (`none` in the embedding), which `ScanPathWithOptions` propagates
as a hard failure of the scan. -/
theorem c5_missing_base_counterexample :
    getDirectoriesAtDepth ⟨fun _ => none, fun _ => none⟩ "/missing" 0 false
      ≠ some [] := by
  decide

/-- Claim C5 (amended): at depth 0 the enumeration yields exactly
`{basePath}` iff the base is statable and a directory; when the base is
statable but not a directory it yields an empty result with no error; when
the base cannot be stat'ed (e.g. does not exist) it returns the stat error,
which hard-fails the scan. -/
theorem c5_depth_zero_amended (fs : FileSystem) (basePath : String) (follow : Bool) :
    (getDirectoriesAtDepth fs basePath 0 follow = some [basePath]
        ↔ ∃ id, fs.stat basePath = some (id, true))
      ∧ (∀ id, fs.stat basePath = some (id, false) →
          getDirectoriesAtDepth fs basePath 0 follow = some [])
      ∧ (fs.stat basePath = none →
          getDirectoriesAtDepth fs basePath 0 follow = none) := by
  refine ⟨⟨?_, ?_⟩, ?_, ?_⟩
  · intro h
    unfold getDirectoriesAtDepth at h
    rcases hs : fs.stat basePath with _ | ⟨id, isDir⟩ <;> rw [hs] at h
    · exact absurd h (by simp)
    · cases isDir with
      | false => simp at h
      | true => exact ⟨id, rfl⟩
  · rintro ⟨id, hs⟩
    unfold getDirectoriesAtDepth
    rw [hs]
    simp
  · intro id hs
    unfold getDirectoriesAtDepth
    rw [hs]
    simp
  · intro hs
    unfold getDirectoriesAtDepth
    rw [hs]

/-- Witness for C5 (amended): a base that is a directory yields itself; a
base that is a plain file yields empty; an unstatable base yields the error. -/
theorem c5_depth_zero_amended_witness :
    getDirectoriesAtDepth ⟨fun _ => some (⟨1, 1⟩, true), fun _ => none⟩ "/d" 0 false
        = some ["/d"]
      ∧ getDirectoriesAtDepth ⟨fun _ => some (⟨1, 1⟩, false), fun _ => none⟩ "/f" 0 false
        = some []
      ∧ getDirectoriesAtDepth ⟨fun _ => none, fun _ => none⟩ "/m" 0 false = none :=
  ⟨(c5_depth_zero_amended ⟨fun _ => some (⟨1, 1⟩, true), fun _ => none⟩ "/d" false).1.mpr
      ⟨⟨1, 1⟩, rfl⟩,
   (c5_depth_zero_amended ⟨fun _ => some (⟨1, 1⟩, false), fun _ => none⟩ "/f" false).2.1
      ⟨1, 1⟩ rfl,
   (c5_depth_zero_amended ⟨fun _ => none, fun _ => none⟩ "/m" false).2.2 rfl⟩

theorem poolStep_workers_length {s t : PoolState} (h : PoolStep s t) :
    t.workers.length = s.workers.length := by
  cases h <;> simp

theorem activeCalls_le_workers (s : PoolState) :
    activeCalls s ≤ s.workers.length :=
  List.length_filter_le _ s.workers

/-- Claim C8: during a streaming scan with configured worker count `w ≥ 1`,
every pool state reachable from the spawn state has at most `w` strategy
invocations (`GetSize` calls) concurrently active: only the `w` spawned
workers ever call the strategy, and each holds at most one call at a time. -/
theorem c8_worker_bound (w : Int) (strategy : Option StrategyFn) (dirs : List String)
    (s : PoolState) (hw : 1 ≤ w)
    (h : Relation.ReflTransGen PoolStep (initPool (Scanner.New w strategy) dirs) s) :
    (activeCalls s : Int) ≤ w := by
  have hlen : s.workers.length = w.toNat := by
    have hinit : (initPool (Scanner.New w strategy) dirs).workers.length = w.toNat := by
      have hnew : Scanner.New w strategy = ⟨w, strategy⟩ := by
        unfold Scanner.New
        rw [if_neg (by omega)]
      rw [hnew]
      simp [initPool]
    induction h with
    | refl => exact hinit
    | tail hr hstep ih => rw [poolStep_workers_length hstep]; exact ih
  have h1 : activeCalls s ≤ w.toNat := hlen ▸ activeCalls_le_workers s
  omega

/-- Witness for C8: a pool of 2 workers after one scheduler step (one worker
took the only directory and is measuring) has 1 ≤ 2 active calls. -/
theorem c8_worker_bound_witness :
    (activeCalls ⟨[], (initPool (Scanner.New 2 none) ["a"]).workers.set 0
        (WorkerPhase.measuring "a")⟩ : Int) ≤ 2 :=
  c8_worker_bound 2 none ["a"] _ (by decide)
    (Relation.ReflTransGen.single
      (PoolStep.takeDir (initPool (Scanner.New 2 none) ["a"]) 0 "a" []
        (by decide) (by decide)))

/-! ## Claim theorems on strategies and the walk -/

/-- Claim C6: strategy selection, both in `DetectStrategy` and in the Auto
strategy's per-directory dispatch `StrategyFor`, follows the fixed tie-break
order: an xattr-capable (CephFS) filesystem wins, else the external `du`
utility if resolvable, else the manual walk.  (`DetectStrategy` checks the
path as given; `statfs` itself resolves symlinks, so this is the resolved
path's filesystem.  `StrategyFor` resolves explicitly first.) -/
theorem c6_selection_tiebreak (env : SysProbe) (path : String) (follow : Bool) :
    ((env.isCephFS path = true → DetectStrategy env path follow = .ceph)
      ∧ (env.isCephFS path = false → ∀ p, env.duLookup = some p →
          DetectStrategy env path follow = .du p)
      ∧ (env.isCephFS path = false → env.duLookup = none →
          DetectStrategy env path follow = .walk))
    ∧ (let resolvedPath := (env.evalSymlinks path).getD path
       (env.isCephFS resolvedPath = true →
          StrategyFor env (NewAutoStrategy env) path = .ceph)
      ∧ (env.isCephFS resolvedPath = false → ∀ p, env.duLookup = some p →
          StrategyFor env (NewAutoStrategy env) path = .du p)
      ∧ (env.isCephFS resolvedPath = false → env.duLookup = none →
          StrategyFor env (NewAutoStrategy env) path = .walk)) := by
  refine ⟨⟨?_, ?_, ?_⟩, ?_, ?_, ?_⟩ <;>
    intro h <;>
    simp [DetectStrategy, StrategyFor, NewAutoStrategy, h]
  · intro p hp; simp [hp]
  · intro hd; simp [hd]
  · intro p hp; simp [hp]
  · intro hd; simp [hd]

/-- Witness for C6 at a concrete environment: no CephFS anywhere, `du`
resolvable at `/usr/bin/du`; both selectors choose the Command strategy. -/
theorem c6_selection_tiebreak_witness :
    DetectStrategy ⟨fun _ => false, some "/usr/bin/du", fun _ => none⟩ "/data" false
        = .du "/usr/bin/du"
      ∧ StrategyFor ⟨fun _ => false, some "/usr/bin/du", fun _ => none⟩
          (NewAutoStrategy ⟨fun _ => false, some "/usr/bin/du", fun _ => none⟩) "/data"
        = .du "/usr/bin/du" :=
  ⟨(c6_selection_tiebreak ⟨fun _ => false, some "/usr/bin/du", fun _ => none⟩
      "/data" false).1.2.1 rfl "/usr/bin/du" rfl,
   (c6_selection_tiebreak ⟨fun _ => false, some "/usr/bin/du", fun _ => none⟩
      "/data" false).2.2.1 rfl "/usr/bin/du" rfl⟩

/-- Claim C7: the Walk strategy is deterministic over an unmodified
filesystem: two invocations of `WalkStrategy.GetSize` on the same tree, each
with a context that is never cancelled, return the same `(bytes, error)`
result (in fact the pure byte total of the tree, with no error). -/
theorem c7_walk_deterministic (fs : WalkFS) (path : String) (d1 d2 : Nat → Bool)
    (h1 : ∀ n, d1 n = false) (h2 : ∀ n, d2 n = false) :
    walkGetSize fs d1 path = walkGetSize fs d2 path := by
  unfold walkGetSize
  rw [walkNoFollow_no_cancel d1 h1, walkNoFollow_no_cancel d2 h2]

/-- Witness for C7: a concrete two-file tree, two never-cancelled contexts. -/
theorem c7_walk_deterministic_witness :
    walkGetSize
        ⟨fun _ => none,
         fun p => if p = "/t" then
            some (.dirNode "t" true [.file "a" 700 false, .file "b" 300 false])
          else none⟩
        (fun _ => false) "/t"
      = walkGetSize
        ⟨fun _ => none,
         fun p => if p = "/t" then
            some (.dirNode "t" true [.file "a" 700 false, .file "b" 300 false])
          else none⟩
        (fun _ => false) "/t" :=
  c7_walk_deterministic _ "/t" _ _ (fun _ => rfl) (fun _ => rfl)

/-- Claim C9: the one-shot single-directory scan always returns a `nil`
operation error; a strategy failure appears only in the returned `Result`'s
`error` field, which carries exactly the strategy's error. -/
theorem c9_scan_single_never_errors (s : Scanner) (detected : StrategyFn)
    (path : String) :
    (ScanSingleWithOptions s detected path).2 = none
      ∧ (ScanSingleWithOptions s detected path).1.error
          = (s.strategy.getD detected path).2 := by
  constructor <;> rfl

/-- Claim C10: whenever `walkNoFollow` (hence `WalkStrategy.GetSize`) returns
a non-nil error, the returned size is exactly 0 — the partial total is
discarded; and an error can arise only from cancellation: a never-cancelled
context yields no error. -/
theorem walkNoFollow_err_zero (done : Nat → Bool) (root : Option FsNode)
    (h : (walkNoFollow done root).2 ≠ none) : (walkNoFollow done root).1 = 0 := by
  unfold walkNoFollow at h ⊢
  rcases hw : walkFold done (rootEvents root) 0 0 with ⟨acc, err⟩
  cases err with
  | none => rw [hw] at h; simp at h
  | some e => rfl

theorem c10_walk_error_returns_zero (fs : WalkFS) (done : Nat → Bool) (path : String) :
    ((walkGetSize fs done path).2 ≠ none → (walkGetSize fs done path).1 = 0)
      ∧ ((∀ n, done n = false) → (walkGetSize fs done path).2 = none) := by
  constructor
  · intro h
    exact walkNoFollow_err_zero done (fs.node ((fs.evalSymlinks path).getD path)) h
  · intro h
    show (walkNoFollow done (fs.node ((fs.evalSymlinks path).getD path))).2 = none
    rw [walkNoFollow_no_cancel done h]

/-- Witness for C10: a context cancelled from the very first checkpoint on a
one-file tree gives a cancellation error and size 0; a never-cancelled
context gives no error. -/
theorem c10_walk_error_returns_zero_witness :
    ((walkGetSize ⟨fun _ => none, fun _ => some (.file "f" 42 false)⟩
        (fun _ => true) "/f").2 ≠ none
      ∧ (walkGetSize ⟨fun _ => none, fun _ => some (.file "f" 42 false)⟩
        (fun _ => true) "/f").1 = 0)
      ∧ (walkGetSize ⟨fun _ => none, fun _ => some (.file "f" 42 false)⟩
        (fun _ => false) "/f").2 = none :=
  ⟨⟨by decide,
    (c10_walk_error_returns_zero ⟨fun _ => none, fun _ => some (.file "f" 42 false)⟩
      (fun _ => true) "/f").1 (by decide)⟩,
   (c10_walk_error_returns_zero ⟨fun _ => none, fun _ => some (.file "f" 42 false)⟩
      (fun _ => false) "/f").2 (fun _ => rfl)⟩

theorem successRecords_cons_err (basePath scanID : String) (r : Result)
    (rest : List Result) (h : r.error.isNone = false) :
    successRecords basePath scanID (r :: rest) = successRecords basePath scanID rest := by
  simp [successRecords, h]

theorem successRecords_cons_ok (basePath scanID : String) (r : Result)
    (rest : List Result) (h : r.error.isNone = true) :
    successRecords basePath scanID (r :: rest)
      = mkRecord basePath scanID r :: successRecords basePath scanID rest := by
  simp [successRecords, h]

theorem successCount_cons_err (r : Result) (rest : List Result)
    (h : r.error.isNone = false) :
    successCount (r :: rest) = successCount rest := by
  simp [successCount, h]

theorem successCount_cons_ok (r : Result) (rest : List Result)
    (h : r.error.isNone = true) :
    successCount (r :: rest) = successCount rest + 1 := by
  simp [successCount, h]

theorem successRecords_length (basePath scanID : String) (results : List Result) :
    (successRecords basePath scanID results).length = successCount results := by
  simp [successRecords, successCount]

/-- When every `RecordUsageBatch` call succeeds, the loop persists everything
(previous records, the pending batch, then every successful result) and ends
failed "cancelled" exactly when the context was cancelled, else completed
with the full count. -/
theorem runScanLoop_ok (flushErr : Nat → Option String) (hok : ∀ n, flushErr n = none)
    (basePath scanID : String) (cancelled : Bool) :
    ∀ (results : List Result) (batch : List UsageRecord) (totalRecords : Nat)
      (persisted : List UsageRecord) (attempts : Nat),
      (runScanLoop flushErr basePath scanID cancelled results batch totalRecords
          persisted attempts).persisted
          = persisted ++ batch ++ successRecords basePath scanID results
        ∧ (runScanLoop flushErr basePath scanID cancelled results batch totalRecords
            persisted attempts).status
          = (if cancelled then ScanStatus.failed "cancelled"
             else ScanStatus.completed
               (totalRecords + batch.length + successCount results)) := by
  intro results
  induction results with
  | nil =>
    intro batch totalRecords persisted attempts
    have hsr : successRecords basePath scanID [] = [] := by simp [successRecords]
    have hsc : successCount ([] : List Result) = 0 := by simp [successCount]
    rcases hb : batch.isEmpty with _ | _
    · -- non-empty batch: the final flush succeeds and appends it
      simp only [runScanLoop, hb, hok attempts, hsr, hsc, List.append_nil]
      cases cancelled <;> simp
    · -- empty batch: the final flush is a no-op
      have hbe : batch = [] := List.isEmpty_iff.mp hb
      subst hbe
      simp only [runScanLoop, hsr, hsc, List.append_nil]
      cases cancelled <;> simp
  | cons r rest ih =>
    intro batch totalRecords persisted attempts
    rcases he : r.error with _ | e
    · -- successful result: appended to the batch
      have hne : r.error.isNone = true := by simp [he]
      rcases ih (batch ++ [mkRecord basePath scanID r])
          totalRecords persisted attempts with ⟨ihP, ihS⟩
      rcases ih [] (totalRecords + (batch ++ [mkRecord basePath scanID r]).length)
          (persisted ++ (batch ++ [mkRecord basePath scanID r]))
          (attempts + 1) with ⟨ihP2, ihS2⟩
      by_cases hfull : batchSize ≤ (batch ++ [mkRecord basePath scanID r]).length
      · simp only [runScanLoop, he, hfull, if_true, hok attempts]
        constructor
        · rw [ihP2, successRecords_cons_ok basePath scanID r rest hne]
          simp
        · rw [ihS2, successCount_cons_ok r rest hne]
          cases cancelled <;> simp <;> omega
      · simp only [runScanLoop, he, hfull, if_false]
        constructor
        · rw [ihP, successRecords_cons_ok basePath scanID r rest hne]
          simp
        · rw [ihS, successCount_cons_ok r rest hne]
          cases cancelled <;> simp <;> omega
    · -- failed result: skipped
      have hne : r.error.isNone = false := by simp [he]
      rcases ih batch totalRecords persisted attempts with ⟨ihP, ihS⟩
      simp only [runScanLoop, he]
      rw [successRecords_cons_err basePath scanID r rest hne,
        successCount_cons_err r rest hne] at *
      exact ⟨ihP, ihS⟩

/-- Taking one more full batch from a list that starts with a full batch
takes that batch and recurses. -/
theorem takeFullBatch (b s : List UsageRecord) (m : Nat) (hb : b.length = batchSize) :
    List.take (batchSize * (m + 1)) (b ++ s) = b ++ List.take (batchSize * m) s := by
  rw [show batchSize * (m + 1) = b.length + batchSize * m by rw [hb]; ring]
  exact List.take_append _

/-- When the first `k` `RecordUsageBatch` calls (counted from `attempts`)
succeed and the next fails with `e`, and enough successful results remain for
that failing call to be reached (`batchSize * k < batch.length + successes`),
the loop stops at the failing flush: exactly the first `batchSize * k`
records of batch-plus-successes are persisted, exactly `k + 1` flush calls
are made, and the scan is failed with `e`. -/
theorem runScanLoop_fail (flushErr : Nat → Option String) (basePath scanID : String)
    (cancelled : Bool) :
    ∀ (results : List Result) (batch : List UsageRecord) (totalRecords : Nat)
      (persisted : List UsageRecord) (attempts : Nat) (k : Nat) (e : String),
      (∀ i, i < k → flushErr (attempts + i) = none) →
      flushErr (attempts + k) = some e →
      batch.length < batchSize →
      batchSize * k < batch.length + successCount results →
      runScanLoop flushErr basePath scanID cancelled results batch totalRecords
          persisted attempts
        = ⟨persisted
            ++ (batch ++ successRecords basePath scanID results).take (batchSize * k),
           attempts + k + 1, ScanStatus.failed e⟩ := by
  intro results
  induction results with
  | nil =>
    intro batch totalRecords persisted attempts k e hk he hlt hN
    have hsc : successCount ([] : List Result) = 0 := by simp [successCount]
    have hbs : batchSize = 100 := rfl
    rw [hsc] at hN
    rw [hbs] at hN hlt
    have hk0 : k = 0 := by omega
    subst hk0
    rw [Nat.add_zero] at he
    have hne : batch.isEmpty = false := by
      rcases batch with _ | ⟨b, bs⟩
      · simp at hN
      · rfl
    simp only [runScanLoop, hne, Bool.false_eq_true, if_false, he]
    simp [successRecords]
  | cons r rest ih =>
    intro batch totalRecords persisted attempts k e hk he hlt hN
    have hbs : batchSize = 100 := rfl
    rcases herr : r.error with _ | e0
    · -- successful result
      have hne : r.error.isNone = true := by simp [herr]
      rw [successCount_cons_ok r rest hne] at hN
      by_cases hfull : batchSize ≤ (batch ++ [mkRecord basePath scanID r]).length
      · -- batch is full: an in-loop flush happens here
        have hlen : (batch ++ [mkRecord basePath scanID r]).length = batchSize := by
          simp only [List.length_append, List.length_singleton] at hfull ⊢
          omega
        rcases k with _ | k'
        · -- this is the failing flush
          rw [Nat.add_zero] at he
          simp only [runScanLoop, herr, if_pos hfull, he]
          simp
        · -- this flush succeeds; recurse with an empty batch
          have h0 : flushErr attempts = none := by
            have h' := hk 0 (Nat.succ_pos k')
            rwa [Nat.add_zero] at h'
          have hk' : ∀ i, i < k' → flushErr (attempts + 1 + i) = none := by
            intro i hi
            have h' := hk (i + 1) (by omega)
            rwa [show attempts + (i + 1) = attempts + 1 + i by omega] at h'
          have he' : flushErr (attempts + 1 + k') = some e := by
            rwa [show attempts + 1 + k' = attempts + (k' + 1) by omega]
          have hlt' : ([] : List UsageRecord).length < batchSize := by simp [hbs]
          have hN' : batchSize * k' < ([] : List UsageRecord).length + successCount rest := by
            simp only [List.length_nil, Nat.zero_add]
            simp only [List.length_append, List.length_singleton] at hfull
            rw [hbs] at hN hlt ⊢
            omega
          have hrec := ih [] (totalRecords + (batch ++ [mkRecord basePath scanID r]).length)
            (persisted ++ (batch ++ [mkRecord basePath scanID r]))
            (attempts + 1) k' e hk' he' hlt' hN'
          simp only [runScanLoop, herr, if_pos hfull, h0]
          rw [hrec]
          simp only [ScanOutcome.mk.injEq]
          refine ⟨?_, by omega, trivial⟩
          rw [successRecords_cons_ok basePath scanID r rest hne]
          rw [List.append_cons batch (mkRecord basePath scanID r)
            (successRecords basePath scanID rest)]
          rw [takeFullBatch (batch ++ [mkRecord basePath scanID r])
              (successRecords basePath scanID rest) k' hlen]
          simp [List.append_assoc]
      · -- batch not yet full: keep accumulating
        have hlt' : (batch ++ [mkRecord basePath scanID r]).length < batchSize := by
          omega
        have hN' : batchSize * k
            < (batch ++ [mkRecord basePath scanID r]).length + successCount rest := by
          simp only [List.length_append, List.length_singleton]
          omega
        have hrec := ih (batch ++ [mkRecord basePath scanID r]) totalRecords persisted
          attempts k e hk he hlt' hN'
        simp only [runScanLoop, herr, if_neg hfull]
        rw [hrec, successRecords_cons_ok basePath scanID r rest hne]
        simp
    · -- failed result: skipped
      have hne : r.error.isNone = false := by simp [herr]
      rw [successCount_cons_err r rest hne] at hN
      simp only [runScanLoop, herr]
      rw [ih batch totalRecords persisted attempts k e hk he hlt hN,
        successRecords_cons_err basePath scanID r rest hne]

/-- Claim C2: if the `(k+1)`-st batch flush of a scan returns a persistence
error `e` (the first `k` flushes succeeding, with enough successful results
to reach that flush), `runScan` marks the Scan Record failed with `e`,
returns immediately — exactly `k + 1` `RecordUsageBatch` calls are ever made,
so no subsequent flush is attempted — and the persisted records are exactly
the `batchSize * k` records of the `k` earlier batches: every earlier batch
remains persisted and no record of the failing batch is persisted (its
transaction rolls back). -/
theorem c2_flush_error_aborts (flushErr : Nat → Option String)
    (basePath scanID : String) (cancelled : Bool) (results : List Result)
    (k : Nat) (e : String)
    (hk : ∀ i, i < k → flushErr i = none)
    (he : flushErr k = some e)
    (hreach : batchSize * k < successCount results) :
    (runScan flushErr basePath scanID cancelled results).status = ScanStatus.failed e
      ∧ (runScan flushErr basePath scanID cancelled results).attempts = k + 1
      ∧ (runScan flushErr basePath scanID cancelled results).persisted
        = (successRecords basePath scanID results).take (batchSize * k) := by
  have h := runScanLoop_fail flushErr basePath scanID cancelled results [] 0 [] 0 k e
    (by simpa using hk) (by simpa using he) (by simp [batchSize])
    (by simpa using hreach)
  rw [runScan, h]
  simp

/-- Witness for C2: 201 successful results with the second flush failing:
the first batch's 100 records stay persisted, exactly 2 flush calls are
made (the third batch is never attempted), and the scan is failed with the
flush error. -/
theorem c2_flush_error_aborts_witness :
    (runScan (fun n => if n = 1 then some "disk full" else none) "/base" "scan1" false
        ((List.range 201).map fun i => ⟨"d", (i : Int), none⟩)).status
        = ScanStatus.failed "disk full"
      ∧ (runScan (fun n => if n = 1 then some "disk full" else none) "/base" "scan1" false
        ((List.range 201).map fun i => ⟨"d", (i : Int), none⟩)).attempts = 2
      ∧ (runScan (fun n => if n = 1 then some "disk full" else none) "/base" "scan1" false
        ((List.range 201).map fun i => ⟨"d", (i : Int), none⟩)).persisted.length = 100 := by
  have h := c2_flush_error_aborts (fun n => if n = 1 then some "disk full" else none)
    "/base" "scan1" false ((List.range 201).map fun i => ⟨"d", (i : Int), none⟩)
    1 "disk full" (by decide) (by decide) (by decide)
  exact ⟨h.1, h.2.1, by rw [h.2.2]; decide⟩

/-- Claim C1: for a scan whose context is cancelled before natural
completion (so `scanCtx.Err()` is non-nil at the post-loop check) and whose
flushes all succeed, `runScan` marks the Scan Record failed with reason
"cancelled" via `FailScan`, and every record of every flushed batch remains
persisted — the persisted list is exactly the successful results delivered
before cancellation, so nothing flushed is undone. -/
theorem c1_cancelled_marks_failed (flushErr : Nat → Option String)
    (hok : ∀ n, flushErr n = none) (basePath scanID : String)
    (results : List Result) :
    (runScan flushErr basePath scanID true results).status
        = ScanStatus.failed "cancelled"
      ∧ (runScan flushErr basePath scanID true results).persisted
        = successRecords basePath scanID results := by
  rcases runScanLoop_ok flushErr hok basePath scanID true results [] 0 [] 0
    with ⟨hP, hS⟩
  refine ⟨?_, ?_⟩
  · rw [runScan, hS]; simp
  · rw [runScan, hP]; simp

/-- Witness for C1: two successful results delivered, then cancellation; the
scan record is failed "cancelled" and both records persist. -/
theorem c1_cancelled_marks_failed_witness :
    (runScan (fun _ => none) "/base" "scan1" true
        [⟨"/base/a", 10, none⟩, ⟨"/base/b", 20, none⟩]).status
        = ScanStatus.failed "cancelled"
      ∧ (runScan (fun _ => none) "/base" "scan1" true
        [⟨"/base/a", 10, none⟩, ⟨"/base/b", 20, none⟩]).persisted
        = successRecords "/base" "scan1"
            [⟨"/base/a", 10, none⟩, ⟨"/base/b", 20, none⟩] :=
  c1_cancelled_marks_failed (fun _ => none) (fun _ => rfl) "/base" "scan1"
    [⟨"/base/a", 10, none⟩, ⟨"/base/b", 20, none⟩]

/-- Claim C3: a scan that runs to natural completion (not cancelled, all
flushes succeeding) excludes failed results from persistence without failing
the scan: the persisted records are exactly those built from the successful
results, their number equals the number of successful results, and the Scan
Record is marked completed with that count. -/
theorem c3_partial_failures_nonfatal (flushErr : Nat → Option String)
    (hok : ∀ n, flushErr n = none) (basePath scanID : String)
    (results : List Result) :
    (runScan flushErr basePath scanID false results).status
        = ScanStatus.completed (successCount results)
      ∧ (runScan flushErr basePath scanID false results).persisted
        = successRecords basePath scanID results
      ∧ (runScan flushErr basePath scanID false results).persisted.length
        = successCount results := by
  rcases runScanLoop_ok flushErr hok basePath scanID false results [] 0 [] 0
    with ⟨hP, hS⟩
  refine ⟨?_, ?_, ?_⟩
  · rw [runScan, hS]; simp
  · rw [runScan, hP]; simp
  · rw [runScan, hP]
    simp [successRecords_length]

/-- Witness for C3: 100 target-depth directories of which 3 fail
measurement: 97 records persist and the Scan Record is completed with
count 97, not failed. -/
theorem c3_partial_failures_nonfatal_witness :
    (runScan (fun _ => none) "/base" "scan1" false
        ((List.range 100).map fun i =>
          ⟨"d", (i : Int), if i < 3 then some "denied" else none⟩)).status
        = ScanStatus.completed 97
      ∧ (runScan (fun _ => none) "/base" "scan1" false
        ((List.range 100).map fun i =>
          ⟨"d", (i : Int), if i < 3 then some "denied" else none⟩)).persisted.length
        = 97 := by
  have h := c3_partial_failures_nonfatal (fun _ => none) (fun _ => rfl) "/base" "scan1"
    ((List.range 100).map fun i => ⟨"d", (i : Int), if i < 3 then some "denied" else none⟩)
  exact ⟨by rw [h.1]; decide, by rw [h.2.2]; decide⟩

end Usgmon
